import Mathlib

/-!
Verification of the Polester backend advertisement-campaign service.

The Python service (functions/advertisements.py, functions/image_generation.py,
router/advertisements.py) is shallowly embedded: the Supabase table is a
`List Row`, object storage and external backends are parameters, datetimes are
integers, and every service operation becomes a total Lean function returning
the same `{success, data, message}` envelope the code builds.
-/

/-- A row of the `advertisements` table (§3 of the spec, columns as inserted by
`create_advertisement`). Timestamps are modelled as integers. -/
structure Row where
  id : Int
  image_url : String
  image_path : Option String
  description : String
  start_time : Int
  end_time : Int
  impression_count : Int
  current_impressions : Int
  status : String
  created_at : Int
  updated_at : Option Int
deriving DecidableEq

/-- The `{success, data, message}` envelope for operations returning a single
record (or `None`). -/
structure RowResult where
  success : Bool
  data : Option Row
  message : String
deriving DecidableEq

/-- `AdvertisementService.get_advertisement`: select rows with matching id;
empty result is a NotFound failure, otherwise the first row is returned. -/
def getAdvertisement (db : List Row) (ad_id : Int) : RowResult :=
  match db.filter (fun r => r.id == ad_id) with
  | [] => { success := false, data := none, message := "找不到該廣告" }
  | r :: _ => { success := true, data := some r, message := "獲取廣告成功" }

/-- The update payload `increment_impression` sends to the store:
`current_impressions` is always written; `status` is present only when the
post-increment count reaches the quota. -/
structure IncrementPatch where
  current_impressions : Int
  status : Option String
deriving DecidableEq

/-- Lines 321-327 of `increment_impression`: build the update payload from the
record read. -/
def incrementPatch (r : Row) : IncrementPatch :=
  let new_impressions := r.current_impressions + 1
  { current_impressions := new_impressions,
    status := if r.impression_count ≤ new_impressions then some "completed" else none }

/-- Effect of the store applying an `IncrementPatch` to a row: the counter is
overwritten; the status column is written only when present in the payload. -/
def applyIncrementPatch (p : IncrementPatch) (r : Row) : Row :=
  { r with current_impressions := p.current_impressions,
           status := p.status.getD r.status }

/-- `AdvertisementService.increment_impression`. The read and the write are
separate store calls, so the function takes two table snapshots: `dbRead` is
the table at the `get_advertisement` call, `dbWrite` the table at the
`update` call (they coincide in a sequential run). Returns the envelope the
code returns and the table after the write. The update call itself always
yields `success = True`; `data` is the first updated row or `None` when the
update matched nothing. -/
def incrementImpression (dbRead dbWrite : List Row) (ad_id : Int) :
    RowResult × List Row :=
  let adResp := getAdvertisement dbRead ad_id
  match adResp.data, adResp.success with
  | some ad, true =>
      let p := incrementPatch ad
      let newDb := dbWrite.map (fun r => if r.id == ad_id then applyIncrementPatch p r else r)
      let updated := (dbWrite.filter (fun r => r.id == ad_id)).map (applyIncrementPatch p)
      ({ success := true, data := updated.head?, message := "曝光次數更新成功" }, newDb)
  | _, _ => (adResp, dbWrite)

/-- One sequential `increment_impression` call: read and write see the same
table; the result is the table afterwards. -/
def incrementSeq (db : List Row) (ad_id : Int) : List Row :=
  (incrementImpression db db ad_id).2

/-- `n` sequential `increment_impression` calls on the same id. -/
def incrementSeqN : Nat → List Row → Int → List Row
  | 0, db, _ => db
  | n + 1, db, ad_id => incrementSeq (incrementSeqN n db ad_id) ad_id

/-- Combined effect of one increment on the targeted row itself. -/
def incrStep (r : Row) : Row :=
  applyIncrementPatch (incrementPatch r) r

/-- `n`-fold iteration of `incrStep`. -/
def incrStepN : Nat → Row → Row
  | 0, r => r
  | n + 1, r => incrStep (incrStepN n r)

/-- A concrete fresh campaign row used to instantiate proved theorems. -/
def sampleAd : Row :=
  { id := 1, image_url := "u", image_path := some "p", description := "d",
    start_time := 0, end_time := 10, impression_count := 3,
    current_impressions := 0, status := "active", created_at := 0,
    updated_at := none }

/-- Claim C1: `increment_impression` computes `new_count = current_impressions + 1`
and writes it back; the same write sets `status = completed` exactly when
`new_count ≥ impression_count`, and when `new_count < impression_count` the
status field is absent from the write. -/
theorem increment_writes_plus_one_and_completes_at_quota (r : Row) :
    (incrementPatch r).current_impressions = r.current_impressions + 1 ∧
    ((incrementPatch r).status = some "completed" ↔
      r.impression_count ≤ r.current_impressions + 1) ∧
    ((incrementPatch r).status = none ↔
      r.current_impressions + 1 < r.impression_count) ∧
    (∀ (dbRead dbWrite : List Row) (i : Int) (rest : List Row),
      dbRead.filter (fun x => x.id == i) = r :: rest →
      (incrementImpression dbRead dbWrite i).2 =
        dbWrite.map (fun x =>
          if x.id == i then applyIncrementPatch (incrementPatch r) x else x)) := by
  refine ⟨rfl, ?_, ?_, ?_⟩
  · simp only [incrementPatch]
    split <;> simp_all
  · simp only [incrementPatch]
    split <;> simp_all
  · intro dbRead dbWrite i rest hf
    simp [incrementImpression, getAdvertisement, hf]

/-- Witness for C1: the update payload for a fresh record with quota 3 writes
counter 1 and omits the status field, and the table-level write maps the
matching row through the patch. -/
theorem increment_writes_plus_one_and_completes_at_quota_witness :
    (incrementPatch sampleAd).current_impressions = 1 ∧
    (incrementPatch sampleAd).status = none := by
  have h := increment_writes_plus_one_and_completes_at_quota sampleAd
  exact ⟨h.1, h.2.2.1.mpr (by decide)⟩

lemma incrStep_id (r : Row) : (incrStep r).id = r.id := rfl

lemma incrStep_impression_count (r : Row) :
    (incrStep r).impression_count = r.impression_count := rfl

lemma incrStep_current (r : Row) :
    (incrStep r).current_impressions = r.current_impressions + 1 := rfl

lemma incrStep_status (r : Row) :
    (incrStep r).status =
      if r.impression_count ≤ r.current_impressions + 1 then "completed"
      else r.status := by
  simp only [incrStep, applyIncrementPatch, incrementPatch]
  split <;> simp

lemma incrStepN_id (n : Nat) (r : Row) : (incrStepN n r).id = r.id := by
  induction n with
  | zero => rfl
  | succ n ih => simp [incrStepN, incrStep_id, ih]

lemma incrStepN_impression_count (n : Nat) (r : Row) :
    (incrStepN n r).impression_count = r.impression_count := by
  induction n with
  | zero => rfl
  | succ n ih => simp [incrStepN, incrStep_impression_count, ih]

lemma incrStepN_current (n : Nat) (r : Row) :
    (incrStepN n r).current_impressions = r.current_impressions + n := by
  induction n with
  | zero => simp [incrStepN]
  | succ n ih => simp [incrStepN, incrStep_current, ih]; ring

lemma incrStepN_fresh_status (r : Row) (h0 : r.current_impressions = 0)
    (hq : 1 ≤ r.impression_count) (n : Nat) :
    (incrStepN n r).status =
      if r.impression_count ≤ (n : Int) then "completed" else r.status := by
  induction n with
  | zero =>
    simp only [incrStepN, Nat.cast_zero]
    rw [if_neg (by omega)]
  | succ n ih =>
    rw [incrStepN, incrStep_status, incrStepN_impression_count,
      incrStepN_current, h0, ih]
    by_cases hc : r.impression_count ≤ (n : Int) + 1
    · have hc2 : r.impression_count ≤ ((n + 1 : Nat) : Int) := by push_cast; omega
      simp [hc, hc2]
    · have hc2 : ¬ r.impression_count ≤ ((n + 1 : Nat) : Int) := by push_cast; omega
      have hc3 : ¬ r.impression_count ≤ (n : Int) := by omega
      simp [hc, hc2, hc3]

lemma incrementSeq_singleton (r : Row) :
    incrementSeq [r] r.id = [incrStep r] := by
  simp [incrementSeq, incrementImpression, getAdvertisement, List.filter, incrStep]

lemma incrementSeqN_singleton (n : Nat) (r : Row) :
    incrementSeqN n [r] r.id = [incrStepN n r] := by
  induction n with
  | zero => rfl
  | succ n ih =>
    have hid : (incrStepN n r).id = r.id := incrStepN_id n r
    calc incrementSeqN (n + 1) [r] r.id
        = incrementSeq [incrStepN n r] r.id := by rw [incrementSeqN, ih]
      _ = incrementSeq [incrStepN n r] (incrStepN n r).id := by rw [hid]
      _ = [incrStep (incrStepN n r)] := incrementSeq_singleton _
      _ = [incrStepN (n + 1) r] := rfl

/-- A fresh campaign row whose quota is a single impression. -/
def freshQuotaOne : Row := { sampleAd with impression_count := 1 }

/-- Claim C2 counterexample: starting from a fresh campaign with
`impression_count = 1`, two sequential `increment_impression` calls leave the
stored row with `current_impressions = 2 > 1 = impression_count`: the counter
is not capped at the quota, refuting "current_impressions never exceeds
impression_count". -/
theorem counter_exceeds_quota_after_two_increments :
    incrementSeqN 2 [freshQuotaOne] 1 =
      [{ freshQuotaOne with current_impressions := 2, status := "completed" }] ∧
    ¬ (∀ r ∈ incrementSeqN 2 [freshQuotaOne] 1,
        r.current_impressions ≤ r.impression_count) :=
  ⟨by decide, by decide⟩

/-- Claim C2 (amended): `increment_impression` is the only writer of the
counter and it transitions status to `completed` exactly when the
post-increment value reaches or exceeds the quota, but the counter is NOT
capped: starting from a fresh record, after `n` sequential increments the
counter equals `n` (which may exceed the quota) and the status is `completed`
exactly when `n` has reached the quota. -/
theorem counter_unbounded_quota_marks_completed (r : Row) (n : Nat)
    (h0 : r.current_impressions = 0) (ha : r.status = "active")
    (hq : 1 ≤ r.impression_count) :
    incrementSeqN n [r] r.id = [incrStepN n r] ∧
    (incrStepN n r).current_impressions = (n : Int) ∧
    ((incrStepN n r).status = "completed" ↔ r.impression_count ≤ (n : Int)) ∧
    (incrStepN n r).impression_count = r.impression_count := by
  refine ⟨incrementSeqN_singleton n r, ?_, ?_, incrStepN_impression_count n r⟩
  · rw [incrStepN_current, h0, zero_add]
  · rw [incrStepN_fresh_status r h0 hq n]
    by_cases hc : r.impression_count ≤ (n : Int)
    · simp [hc]
    · simp [hc, ha]

/-- Witness for the amended C2: three increments on the quota-3 sample row
drive the counter to 3 and the status to completed. -/
theorem counter_unbounded_quota_marks_completed_witness :
    incrementSeqN 3 [sampleAd] sampleAd.id = [incrStepN 3 sampleAd] ∧
    (incrStepN 3 sampleAd).current_impressions = 3 ∧
    (incrStepN 3 sampleAd).status = "completed" := by
  have h := counter_unbounded_quota_marks_completed sampleAd 3 rfl rfl (by decide)
  exact ⟨h.1, h.2.1, h.2.2.1.mpr (by decide)⟩

lemma incrementPatch_status_cases (r : Row) :
    (incrementPatch r).status = none ∨
    (incrementPatch r).status = some "completed" := by
  simp only [incrementPatch]
  split <;> simp

lemma applyIncrementPatch_completed (p : IncrementPatch)
    (hp : p.status = none ∨ p.status = some "completed") (r : Row)
    (hr : r.status = "completed") :
    (applyIncrementPatch p r).status = "completed" := by
  rcases hp with h | h <;> simp [applyIncrementPatch, h, hr]

lemma incrementImpression_snd (dbRead dbWrite : List Row) (i : Int) :
    (incrementImpression dbRead dbWrite i).2 = dbWrite ∨
    ∃ ad, (incrementImpression dbRead dbWrite i).2 =
      dbWrite.map (fun x =>
        if x.id == i then applyIncrementPatch (incrementPatch ad) x else x) := by
  unfold incrementImpression
  cases hf : dbRead.filter (fun x => x.id == i) with
  | nil => simp [getAdvertisement, hf]
  | cons a rest =>
    right
    exact ⟨a, by simp [getAdvertisement, hf]⟩

lemma incrementSeqN_preserves_completed (n : Nat) (db : List Row) (i : Int)
    (h : ∀ r ∈ db, r.status = "completed") :
    ∀ r ∈ incrementSeqN n db i, r.status = "completed" := by
  induction n generalizing db with
  | zero => exact h
  | succ n ih =>
    have hmid := ih db h
    intro r hr
    rw [incrementSeqN] at hr
    rcases incrementImpression_snd (incrementSeqN n db i) (incrementSeqN n db i) i
      with hcase | ⟨ad, hcase⟩
    · rw [incrementSeq, hcase] at hr
      exact hmid r hr
    · rw [incrementSeq, hcase] at hr
      rcases List.mem_map.mp hr with ⟨x, hx, hxe⟩
      rcases em (x.id == i) with hid | hid
      · rw [if_pos hid] at hxe
        rw [← hxe]
        exact applyIncrementPatch_completed _ (incrementPatch_status_cases ad) x (hmid x hx)
      · rw [if_neg hid] at hxe
        rw [← hxe]
        exact hmid x hx

/-- Claim C3: completion is absorbing under `increment_impression`: each
increment either writes `status = completed` again or leaves the status field
untouched (the payload's status is `none` or `some "completed"`), so a table
of completed rows stays completed under any number of increments. -/
theorem completed_is_absorbing :
    (∀ r : Row, (incrementPatch r).status = none ∨
      (incrementPatch r).status = some "completed") ∧
    ∀ (db : List Row) (i : Int) (n : Nat),
      (∀ r ∈ db, r.status = "completed") →
      ∀ r ∈ incrementSeqN n db i, r.status = "completed" :=
  ⟨incrementPatch_status_cases,
   fun db i n h => incrementSeqN_preserves_completed n db i h⟩

/-- A completed campaign row used to instantiate the C3 theorem. -/
def completedAd : Row :=
  { sampleAd with status := "completed", current_impressions := 5 }

/-- Witness for C3: two further increments on a completed row keep it
completed. -/
theorem completed_is_absorbing_witness :
    ∀ r ∈ incrementSeqN 2 [completedAd] 1, r.status = "completed" :=
  completed_is_absorbing.2 [completedAd] 1 2 (by decide)

/-- Claim C4 counterexample: with the row present at the read but gone at the
write, `increment_impression` returns `success = True` with `data = None` — a
success with an empty payload, not a failure, refuting "the operation's
result is a failure". -/
theorem increment_vanished_row_not_failure :
    (incrementImpression [sampleAd] [] 1).1.success = true ∧
    (incrementImpression [sampleAd] [] 1).1.data = none :=
  ⟨by decide, by decide⟩

/-- Claim C4 (amended): when the record vanishes between the read and the
write (the update matches no row), `increment_impression` reports success with
an empty payload; the NotFound failure arises only when the initial read
matches no row. -/
theorem increment_vanished_row_reports_success (dbRead dbWrite : List Row)
    (i : Int) :
    (dbRead.filter (fun x => x.id == i) ≠ [] →
      dbWrite.filter (fun x => x.id == i) = [] →
      (incrementImpression dbRead dbWrite i).1.success = true ∧
      (incrementImpression dbRead dbWrite i).1.data = none) ∧
    (dbRead.filter (fun x => x.id == i) = [] →
      (incrementImpression dbRead dbWrite i).1.success = false ∧
      (incrementImpression dbRead dbWrite i).1.message = "找不到該廣告") := by
  constructor
  · intro hr hw
    cases hf : dbRead.filter (fun x => x.id == i) with
    | nil => exact absurd hf hr
    | cons a rest =>
      unfold incrementImpression
      simp [getAdvertisement, hf, hw]
  · intro hr
    unfold incrementImpression
    simp [getAdvertisement, hr]

/-- Witness for the amended C4 at concrete tables: a row seen by the read but
missing at the write yields a success with no payload, and an empty read
yields the NotFound failure. -/
theorem increment_vanished_row_reports_success_witness :
    ((incrementImpression [completedAd] [] 1).1.success = true ∧
     (incrementImpression [completedAd] [] 1).1.data = none) ∧
    ((incrementImpression [] [] 1).1.success = false ∧
     (incrementImpression [] [] 1).1.message = "找不到該廣告") :=
  ⟨(increment_vanished_row_reports_success [completedAd] [] 1).1 (by decide) rfl,
   (increment_vanished_row_reports_success [] [] 1).2 rfl⟩

/-- The optional fields of `update_advertisement` (the PATCH body). -/
structure UpdateRequest where
  description : Option String
  start_time : Option Int
  end_time : Option Int
  impression_count : Option Int
  status : Option String
deriving DecidableEq

/-- Lines 249-262 of `update_advertisement`: the built `update_data` dict is
empty exactly when every optional argument is `None`. -/
def updateIsEmpty (u : UpdateRequest) : Bool :=
  u.description.isNone && u.start_time.isNone && u.end_time.isNone &&
  u.impression_count.isNone && u.status.isNone

/-- Effect of the store applying the built `update_data` (the supplied fields
plus the `updated_at` stamp) to a matching row. -/
def applyUpdate (u : UpdateRequest) (now : Int) (r : Row) : Row :=
  { r with
    description := u.description.getD r.description,
    start_time := u.start_time.getD r.start_time,
    end_time := u.end_time.getD r.end_time,
    impression_count := u.impression_count.getD r.impression_count,
    status := u.status.getD r.status,
    updated_at := some now }

/-- `AdvertisementService.update_advertisement`: reject an empty field set
before any store call, otherwise update all rows matching the id and return
the first updated row (NotFound when the update matched nothing). -/
def updateAdvertisement (u : UpdateRequest) (ad_id : Int) (now : Int)
    (db : List Row) : RowResult × List Row :=
  if updateIsEmpty u then
    ({ success := false, data := none, message := "沒有提供更新資料" }, db)
  else
    let newDb := db.map (fun r => if r.id == ad_id then applyUpdate u now r else r)
    let updated := (db.filter (fun r => r.id == ad_id)).map (applyUpdate u now)
    match updated with
    | [] => ({ success := false, data := none, message := "找不到該廣告" }, newDb)
    | x :: _ => ({ success := true, data := some x, message := "廣告更新成功" }, newDb)

/-- Claim C6: an empty field set yields the NoOp failure with the table
untouched (no `updated_at` stamp); a non-empty set updates exactly the
matching rows, leaving absent fields untouched and always stamping
`updated_at`. -/
theorem update_empty_noop_else_stamps (u : UpdateRequest) (i now : Int)
    (db : List Row) :
    (updateIsEmpty u = true →
      (updateAdvertisement u i now db).1.success = false ∧
      (updateAdvertisement u i now db).1.message = "沒有提供更新資料" ∧
      (updateAdvertisement u i now db).2 = db) ∧
    (updateIsEmpty u = false →
      (updateAdvertisement u i now db).2 =
        db.map (fun r => if r.id == i then applyUpdate u now r else r) ∧
      ∀ r : Row,
        (applyUpdate u now r).updated_at = some now ∧
        (u.description = none →
          (applyUpdate u now r).description = r.description) ∧
        (u.start_time = none → (applyUpdate u now r).start_time = r.start_time) ∧
        (u.end_time = none → (applyUpdate u now r).end_time = r.end_time) ∧
        (u.impression_count = none →
          (applyUpdate u now r).impression_count = r.impression_count) ∧
        (u.status = none → (applyUpdate u now r).status = r.status)) := by
  constructor
  · intro he
    simp [updateAdvertisement, he]
  · intro he
    constructor
    · simp only [updateAdvertisement, he, Bool.false_eq_true, if_false]
      split <;> rfl
    · intro r
      refine ⟨rfl, ?_, ?_, ?_, ?_, ?_⟩ <;> intro h <;> simp [applyUpdate, h]

/-- An update request with every field absent. -/
def emptyUpdate : UpdateRequest := ⟨none, none, none, none, none⟩

/-- An update request supplying only the status field. -/
def statusOnlyUpdate : UpdateRequest := ⟨none, none, none, none, some "paused"⟩

/-- Witness for C6: the all-absent request is a NoOp on a one-row table, and a
status-only request stamps `updated_at` while leaving the description
untouched. -/
theorem update_empty_noop_else_stamps_witness :
    ((updateAdvertisement emptyUpdate 1 7 [sampleAd]).1.success = false ∧
     (updateAdvertisement emptyUpdate 1 7 [sampleAd]).2 = [sampleAd]) ∧
    ((applyUpdate statusOnlyUpdate 7 sampleAd).updated_at = some 7 ∧
     (applyUpdate statusOnlyUpdate 7 sampleAd).description =
       sampleAd.description) := by
  have h1 := (update_empty_noop_else_stamps emptyUpdate 1 7 [sampleAd]).1 (by decide)
  have h2 :=
    (update_empty_noop_else_stamps statusOnlyUpdate 1 7 [sampleAd]).2 (by decide)
  exact ⟨⟨h1.1, h1.2.2⟩, ⟨(h2.2 sampleAd).1, (h2.2 sampleAd).2.1 rfl⟩⟩

/-- `AdvertisementService.delete_advertisement`: read the record for its
image path; when the path is truthy (neither `None` nor empty) attempt the
blob removal, whose failure is caught and only logged (`blobRemoveFails` says
whether the storage call raises; the third component records the attempts);
then delete the row and report success. The initial read failing is the only
failure. -/
def deleteAdvertisement (db : List Row) (blobRemoveFails : Bool) (ad_id : Int) :
    RowResult × List Row × List String :=
  let adResp := getAdvertisement db ad_id
  match adResp.data, adResp.success with
  | some ad, true =>
      let removals :=
        match ad.image_path with
        | some p => if p != "" then
            [(if blobRemoveFails then "remove-failed:" else "removed:") ++ p]
          else []
        | none => []
      let newDb := db.filter (fun r => !(r.id == ad_id))
      ({ success := true, data := none, message := "廣告刪除成功" }, newDb, removals)
  | _, _ => (adResp, db, [])

/-- Claim C7: `delete` fails with NotFound exactly when the initial read
fails; otherwise it removes the row and reports success, independently of
whether the blob removal fails and of the `image_path` contents. -/
theorem delete_removes_row_blob_failure_nonfatal (db : List Row) (b b' : Bool)
    (i : Int) :
    (db.filter (fun r => r.id == i) = [] →
      (deleteAdvertisement db b i).1.success = false ∧
      (deleteAdvertisement db b i).1.message = "找不到該廣告" ∧
      (deleteAdvertisement db b i).2.1 = db) ∧
    (db.filter (fun r => r.id == i) ≠ [] →
      (deleteAdvertisement db b i).1.success = true ∧
      (deleteAdvertisement db b i).1.data = none ∧
      (deleteAdvertisement db b i).2.1 = db.filter (fun r => !(r.id == i))) ∧
    (deleteAdvertisement db b i).1 = (deleteAdvertisement db b' i).1 ∧
    (deleteAdvertisement db b i).2.1 = (deleteAdvertisement db b' i).2.1 := by
  refine ⟨?_, ?_, ?_, ?_⟩
  · intro hf
    simp [deleteAdvertisement, getAdvertisement, hf]
  · intro hne
    cases hf : db.filter (fun r => r.id == i) with
    | nil => exact absurd hf hne
    | cons a rest => simp [deleteAdvertisement, getAdvertisement, hf]
  · cases hf : db.filter (fun r => r.id == i) with
    | nil => simp [deleteAdvertisement, getAdvertisement, hf]
    | cons a rest => simp [deleteAdvertisement, getAdvertisement, hf]
  · cases hf : db.filter (fun r => r.id == i) with
    | nil => simp [deleteAdvertisement, getAdvertisement, hf]
    | cons a rest => simp [deleteAdvertisement, getAdvertisement, hf]

/-- A campaign row whose `image_path` is `None`. -/
def pathlessAd : Row := { sampleAd with id := 2, image_path := none }

/-- Witness for C7: deleting the pathless row still removes it and reports
success, and deleting from an empty table is the NotFound failure. -/
theorem delete_removes_row_blob_failure_nonfatal_witness :
    ((deleteAdvertisement [pathlessAd] false 2).1.success = true ∧
     (deleteAdvertisement [pathlessAd] false 2).2.1 = []) ∧
    ((deleteAdvertisement [] false 2).1.success = false ∧
     (deleteAdvertisement [] false 2).1.message = "找不到該廣告") := by
  have h1 := (delete_removes_row_blob_failure_nonfatal [pathlessAd] false false 2).2.1
    (by decide)
  have h2 := (delete_removes_row_blob_failure_nonfatal [] false false 2).1 rfl
  refine ⟨⟨h1.1, ?_⟩, h2.1, h2.2.1⟩
  rw [h1.2.2]
  decide

/-- Outcome of the create endpoint: the router-side validation rejections
(HTTP 400), a surfaced service failure (HTTP 500), or the created record
(HTTP 201). -/
inductive CreateResponse
  | badContentType
  | tooLarge
  | badTimeFormat
  | badTimeWindow
  | serviceFailure (message : String)
  | created (r : Row)
deriving DecidableEq

/-- The multipart form of the create endpoint. `contents` are the image bytes
already read; `start_time`/`end_time` hold the `fromisoformat` results, with
`none` modelling a `ValueError`. -/
structure CreateForm where
  contentType : String
  contents : List Nat
  filename : String
  description : String
  start_time : Option Int
  end_time : Option Int
  impression_count : Int
deriving DecidableEq

/-- The public URL the storage adapter derives from a storage path
(`get_public_url`). -/
def publicUrl (path : String) : String := "https://storage.example/" ++ path

/-- `AdvertisementService.create_advertisement` with the storage and row-store
collaborators inlined on their happy path: derive the storage key from the
random identifier `uid` plus the original file extension, upload, and insert
a row with `current_impressions = 0` and `status = "active"` (the store
assigns the next id). Returns the envelope, the storage uploads performed,
and the table after the insert. -/
def create_advertisement (image_data : List Nat) (image_filename : String)
    (description : String) (start_time end_time : Int)
    (impression_count : Int) (uid : String) (now : Int) (db : List Row) :
    RowResult × List String × List Row :=
  let file_extension := (image_filename.splitOn ".").getLastD ""
  let storage_path := "advertisements/" ++ uid ++ "." ++ file_extension
  let r : Row :=
    { id := (db.length : Int),
      image_url := publicUrl storage_path,
      image_path := some storage_path,
      description := description,
      start_time := start_time,
      end_time := end_time,
      impression_count := impression_count,
      current_impressions := 0,
      status := "active",
      created_at := now,
      updated_at := none }
  ({ success := true, data := some r, message := "廣告建立成功" },
   ["upload:" ++ storage_path], db ++ [r])

/-- The content-type guard `image.content_type.startswith("image/")`. -/
def startsWithImage (contentType : String) : Bool :=
  "image/".data.isPrefixOf contentType.data

/-- The router's create endpoint (POST /advertisements/): content-type check,
10MB size cap, ISO-8601 parsing, the `end_time ≤ start_time` rejection, and
only then the service call. Returns the response, the storage uploads
performed, and the table afterwards. -/
def createAdvertisementRoute (f : CreateForm) (uid : String) (now : Int)
    (db : List Row) : CreateResponse × List String × List Row :=
  if !(startsWithImage f.contentType) then (.badContentType, [], db)
  else if 10 * 1024 * 1024 < f.contents.length then (.tooLarge, [], db)
  else
    match f.start_time, f.end_time with
    | some s, some e =>
        if e ≤ s then (.badTimeWindow, [], db)
        else
          let res := create_advertisement f.contents f.filename f.description
            s e f.impression_count uid now db
          match res.1.success, res.1.data with
          | true, some r => (.created r, res.2.1, res.2.2)
          | _, _ => (.serviceFailure res.1.message, res.2.1, res.2.2)
    | _, _ => (.badTimeFormat, [], db)

/-- Claim C5: on a valid creation input (image content type, size within the
cap, non-empty bytes, quota at least 1, parsable times with
`start_time < end_time`) the endpoint persists and returns a record with
`current_impressions = 0`, `status = active` and `end_time > start_time`;
with `end_time ≤ start_time` it rejects with the validation error before any
storage write. -/
theorem create_valid_input_fresh_active_record (f : CreateForm) (uid : String)
    (now : Int) (db : List Row) (s e : Int)
    (hct : startsWithImage f.contentType = true)
    (hsz : f.contents.length ≤ 10 * 1024 * 1024)
    (hne : f.contents ≠ [])
    (hq : 1 ≤ f.impression_count)
    (hs : f.start_time = some s) (he : f.end_time = some e) :
    (s < e →
      ∃ r : Row,
        (createAdvertisementRoute f uid now db).1 = .created r ∧
        r.current_impressions = 0 ∧
        r.status = "active" ∧
        r.start_time < r.end_time ∧
        (createAdvertisementRoute f uid now db).2.2 = db ++ [r]) ∧
    (e ≤ s →
      (createAdvertisementRoute f uid now db).1 = .badTimeWindow ∧
      (createAdvertisementRoute f uid now db).2.1 = [] ∧
      (createAdvertisementRoute f uid now db).2.2 = db) := by
  have h1 : (!(startsWithImage f.contentType)) = false := by
    rw [hct]; rfl
  have h2 : ¬ (10 * 1024 * 1024 < f.contents.length) := by omega
  constructor
  · intro hlt
    have h3 : ¬ (e ≤ s) := not_le.mpr hlt
    simp only [createAdvertisementRoute, h1, Bool.false_eq_true, if_false,
      h2, hs, he, h3, create_advertisement]
    exact ⟨_, rfl, rfl, rfl, hlt, rfl⟩
  · intro hle
    simp [createAdvertisementRoute, h1, h2, hs, he, hle]

/-- A valid create form. -/
def goodForm : CreateForm :=
  { contentType := "image/png", contents := [1], filename := "a.png",
    description := "d", start_time := some 0, end_time := some 10,
    impression_count := 1 }

/-- The same form with `end_time` equal to `start_time`. -/
def degenerateForm : CreateForm := { goodForm with end_time := some 0 }

/-- Witness for C5: the valid form yields a created record with a zero
counter, active status and a proper window; the degenerate form is rejected
with no storage write. -/
theorem create_valid_input_fresh_active_record_witness :
    (∃ r : Row,
      (createAdvertisementRoute goodForm "u" 5 []).1 = .created r ∧
      r.current_impressions = 0 ∧
      r.status = "active" ∧
      r.start_time < r.end_time) ∧
    ((createAdvertisementRoute degenerateForm "u" 5 []).1 = .badTimeWindow ∧
     (createAdvertisementRoute degenerateForm "u" 5 []).2.1 = []) := by
  have h1 := (create_valid_input_fresh_active_record goodForm "u" 5 [] 0 10
    (by decide) (by decide) (by decide) (by decide) rfl rfl).1 (by decide)
  have h2 := (create_valid_input_fresh_active_record degenerateForm "u" 5 [] 0 0
    (by decide) (by decide) (by decide) (by decide) rfl rfl).2 le_rfl
  rcases h1 with ⟨r, hr1, hr2, hr3, hr4, hr5⟩
  exact ⟨⟨r, hr1, hr2, hr3, hr4⟩, h2.1, h2.2.1⟩

/-- Insert a row into a list kept in `created_at`-descending order. -/
def insertDesc (r : Row) : List Row → List Row
  | [] => [r]
  | x :: xs =>
    if x.created_at ≤ r.created_at then r :: x :: xs else x :: insertDesc r xs

/-- The store's `order("created_at", desc=True)` as an insertion sort. -/
def sortByCreatedDesc : List Row → List Row
  | [] => []
  | x :: xs => insertDesc x (sortByCreatedDesc xs)

/-- The store's `range(offset, offset + limit - 1)`: the window of `limit`
rows starting at index `offset` (both bounds inclusive). -/
def rangeSlice (offset limit : Nat) (l : List Row) : List Row :=
  (l.drop offset).take limit

/-- The `{success, data, count, message}` envelope of the list operations. -/
structure ListResult where
  success : Bool
  data : List Row
  count : Nat
  message : String
deriving DecidableEq

/-- `AdvertisementService.get_all_advertisements`: optional exact-match status
filter, `created_at`-descending order, then the pagination window. -/
def getAllAdvertisements (status : Option String) (limit offset : Nat)
    (db : List Row) : ListResult :=
  let filtered :=
    match status with
    | some s => db.filter (fun r => r.status == s)
    | none => db
  let rows := rangeSlice offset limit (sortByCreatedDesc filtered)
  { success := true, data := rows, count := rows.length,
    message := "獲取廣告列表成功" }

/-- `AdvertisementService.get_active_advertisements`: status filter and
`created_at`-descending order, with no pagination window. -/
def getActiveAdvertisements (db : List Row) : ListResult :=
  let rows := sortByCreatedDesc (db.filter (fun r => r.status == "active"))
  { success := true, data := rows, count := rows.length,
    message := "獲取有效廣告成功" }

lemma mem_insertDesc {a r : Row} {l : List Row} :
    a ∈ insertDesc r l ↔ a = r ∨ a ∈ l := by
  induction l with
  | nil => simp [insertDesc]
  | cons x xs ih =>
    simp only [insertDesc]
    split
    · simp
    · simp only [List.mem_cons, ih]
      tauto

lemma length_insertDesc (r : Row) (l : List Row) :
    (insertDesc r l).length = l.length + 1 := by
  induction l with
  | nil => rfl
  | cons x xs ih =>
    simp only [insertDesc]
    split
    · simp
    · simp [ih]

lemma mem_sortByCreatedDesc {a : Row} {l : List Row} :
    a ∈ sortByCreatedDesc l ↔ a ∈ l := by
  induction l with
  | nil => simp [sortByCreatedDesc]
  | cons x xs ih => simp [sortByCreatedDesc, mem_insertDesc, ih]

lemma length_sortByCreatedDesc (l : List Row) :
    (sortByCreatedDesc l).length = l.length := by
  induction l with
  | nil => rfl
  | cons x xs ih => simp [sortByCreatedDesc, length_insertDesc, ih]

/-- Sorted by `created_at` in descending order. -/
def SortedDesc (l : List Row) : Prop :=
  l.Pairwise (fun a b => b.created_at ≤ a.created_at)

lemma sortedDesc_insertDesc {r : Row} {l : List Row} (h : SortedDesc l) :
    SortedDesc (insertDesc r l) := by
  induction l with
  | nil => simp [insertDesc, SortedDesc]
  | cons x xs ih =>
    rcases List.pairwise_cons.mp h with ⟨hx, hxs⟩
    simp only [insertDesc]
    split
    · next hle =>
      refine List.Pairwise.cons ?_ h
      intro b hb
      rcases List.mem_cons.mp hb with hb | hb
      · rw [hb]; exact hle
      · exact le_trans (hx b hb) hle
    · next hgt =>
      have hxr : r.created_at ≤ x.created_at := by omega
      refine List.Pairwise.cons ?_ (ih hxs)
      intro b hb
      rcases mem_insertDesc.mp hb with hb | hb
      · rw [hb]; exact hxr
      · exact hx b hb

lemma sortedDesc_sortByCreatedDesc (l : List Row) :
    SortedDesc (sortByCreatedDesc l) := by
  induction l with
  | nil => exact List.Pairwise.nil
  | cons x xs ih => exact sortedDesc_insertDesc ih

/-- 101 active rows: one more than the default page size of the listing. -/
def manyActive : List Row :=
  (List.range 101).map (fun n => { sampleAd with id := (n : Int) })

/-- Claim C8 counterexample: on a table of 101 active rows,
`list(status="active")` with its default pagination (limit 100, offset 0)
returns 100 rows while `list_active()` returns all 101, so the two result
sets differ, refuting "list_active() returns the same set of records". -/
theorem list_status_active_differs_from_list_active :
    (getAllAdvertisements (some "active") 100 0 manyActive).data ≠
      (getActiveAdvertisements manyActive).data := by
  intro h
  have hfull : manyActive.filter (fun r => r.status == "active") = manyActive := by
    rw [List.filter_eq_self]
    intro a ha
    rcases List.mem_map.mp ha with ⟨n, hn, rfl⟩
    rfl
  have hlen := congrArg List.length h
  simp only [getAllAdvertisements, getActiveAdvertisements, rangeSlice, hfull,
    List.drop_zero, List.length_take, length_sortByCreatedDesc] at hlen
  have hml : manyActive.length = 101 := by decide
  rw [hml] at hlen
  omega

/-- Claim C8 (amended): both listings return only `status = active` rows in
`created_at`-descending order and apply no time-window or quota filter (every
active row of the table is in `list_active()`); but `list(status="active")`
additionally paginates, so its result coincides with `list_active()` only
when the active rows fit in the requested page (for instance whenever there
are at most `limit` of them and the offset is 0). -/
theorem list_active_status_only_filter (db : List Row) (limit offset : Nat) :
    (∀ r ∈ (getAllAdvertisements (some "active") limit offset db).data,
      r.status = "active") ∧
    (∀ r ∈ (getActiveAdvertisements db).data, r.status = "active") ∧
    SortedDesc (getActiveAdvertisements db).data ∧
    SortedDesc (getAllAdvertisements (some "active") limit offset db).data ∧
    (∀ r ∈ db, r.status = "active" → r ∈ (getActiveAdvertisements db).data) ∧
    ((db.filter (fun r => r.status == "active")).length ≤ limit →
      (getAllAdvertisements (some "active") limit 0 db).data =
        (getActiveAdvertisements db).data) := by
  refine ⟨?_, ?_, ?_, ?_, ?_, ?_⟩
  · intro r hr
    simp only [getAllAdvertisements, rangeSlice] at hr
    have hr2 := List.drop_subset _ _ (List.take_subset _ _ hr)
    have hr3 := mem_sortByCreatedDesc.mp hr2
    have := (List.mem_filter.mp hr3).2
    simpa using this
  · intro r hr
    simp only [getActiveAdvertisements] at hr
    have hr2 := mem_sortByCreatedDesc.mp hr
    have := (List.mem_filter.mp hr2).2
    simpa using this
  · exact sortedDesc_sortByCreatedDesc _
  · simp only [getAllAdvertisements, rangeSlice]
    exact (sortedDesc_sortByCreatedDesc _).sublist
      ((List.take_sublist _ _).trans (List.drop_sublist _ _))
  · intro r hr hs
    simp only [getActiveAdvertisements]
    exact mem_sortByCreatedDesc.mpr
      (List.mem_filter.mpr ⟨hr, by simp [hs]⟩)
  · intro hlen
    simp only [getAllAdvertisements, getActiveAdvertisements, rangeSlice,
      List.drop_zero]
    exact List.take_of_length_le (by rw [length_sortByCreatedDesc]; exact hlen)

/-- Witness for the amended C8: on a one-row active table the paged listing
with the default page equals `list_active()`, and the latter returns only
active rows. -/
theorem list_active_status_only_filter_witness :
    (getAllAdvertisements (some "active") 100 0 [sampleAd]).data =
      (getActiveAdvertisements [sampleAd]).data ∧
    ∀ r ∈ (getActiveAdvertisements [sampleAd]).data, r.status = "active" := by
  have h := list_active_status_only_filter [sampleAd] 100 0
  exact ⟨h.2.2.2.2.2 (by decide), h.2.1⟩

/-- External calls performed by the image-generation service, in order. -/
inductive GenEffect
  | translateCall (input : List Nat)
  | backendCall (model_id : String)
deriving DecidableEq

/-- Environment of `ImageGenerationService`: which credentials are configured,
the translation backend as an oracle, and the generation backend's
behaviour on this request. Text is modelled as a list of code points. -/
structure GenEnv where
  hfToken : Bool
  geminiAvailable : Bool
  geminiKey : Bool
  translate : List Nat → List Nat
  backendStatus : Nat
  backendBytes : List Nat
  timeoutOccurs : Bool

/-- `_contains_chinese`: some code point lies in the CJK Unified Ideographs
range U+4E00 to U+9FFF. -/
def containsChinese (text : List Nat) : Bool :=
  text.any (fun c => 0x4e00 ≤ c && c ≤ 0x9fff)

/-- The fixed model allow-list `MODELS`. -/
def MODELS : List (String × String) :=
  [("flux-schnell", "black-forest-labs/FLUX.1-schnell"),
   ("sdxl", "stabilityai/stable-diffusion-xl-base-1.0"),
   ("sd-1.5", "runwayml/stable-diffusion-v1-5")]

/-- Dictionary lookup `MODELS.get(model)`. -/
def modelsGet (model : String) : Option String :=
  (MODELS.find? (fun p => p.1 == model)).map Prod.snd

/-- `_translate_to_english`: without the Gemini library or key the text is
returned untranslated and no external call happens; otherwise the translation
backend is called (a failure inside is caught and degrades to the original
text, which the `translate` oracle models by returning its input). Returns
the effective text and the external calls made. -/
def translateToEnglish (env : GenEnv) (text : List Nat) :
    List Nat × List GenEffect :=
  if !env.geminiAvailable then (text, [])
  else if !env.geminiKey then (text, [])
  else (env.translate text, [.translateCall text])

/-- Success payload of `generate_image`. -/
structure GenData where
  image_bytes : List Nat
  size : Nat
  model : String
  prompt : List Nat
  original_prompt : List Nat
deriving DecidableEq

/-- The `{success, data, message}` envelope of `generate_image`. -/
structure GenResult where
  success : Bool
  data : Option GenData
  message : String
deriving DecidableEq

/-- `ImageGenerationService.generate_image`: token guard, Chinese-prompt
translation, negative-prompt translation, model allow-list lookup, and only
then the generation backend call (with its timeout, 200, 503 and other-error
outcomes). Returns the envelope and the trace of external calls in the order
performed. -/
def generateImage (env : GenEnv) (prompt : List Nat) (model : String)
    (negative_prompt : Option (List Nat)) : GenResult × List GenEffect :=
  if !env.hfToken then
    ({ success := false, data := none,
       message := "HUGGINGFACE_TOKEN 環境變數未設定" }, [])
  else
    let original_prompt := prompt
    let tp :=
      if containsChinese prompt then translateToEnglish env prompt
      else (prompt, [])
    let tn :=
      match negative_prompt with
      | some np =>
          if containsChinese np then
            let t := translateToEnglish env np
            (some t.1, t.2)
          else (some np, [])
      | none => (none, [])
    match modelsGet model with
    | none =>
        ({ success := false, data := none,
           message := "不支援的模型: " ++ model }, tp.2 ++ tn.2)
    | some model_id =>
        let effects := tp.2 ++ tn.2 ++ [.backendCall model_id]
        if env.timeoutOccurs then
          ({ success := false, data := none,
             message := "請求超時，模型可能需要更長時間載入，請稍後再試" }, effects)
        else if env.backendStatus == 200 then
          ({ success := true,
             data := some { image_bytes := env.backendBytes,
                            size := env.backendBytes.length,
                            model := model, prompt := tp.1,
                            original_prompt := original_prompt },
             message := "圖片生成成功" }, effects)
        else if env.backendStatus == 503 then
          ({ success := false, data := none,
             message := "模型正在載入中，請稍後再試（約需要 20-30 秒）" }, effects)
        else
          ({ success := false, data := none,
             message := "圖片生成失敗" }, effects)

/-- A fully configured generation environment. -/
def genEnvReady : GenEnv :=
  { hfToken := true, geminiAvailable := true, geminiKey := true,
    translate := fun _ => [101], backendStatus := 200,
    backendBytes := [], timeoutOccurs := false }

/-- Claim C9 counterexample: with a CJK prompt and an unknown model id the
request is rejected with the unsupported-model failure, but only AFTER the
translation capability has been called — the trace is nonempty, refuting
"rejected before any side effect occurs, in particular before any call to
the translation capability". -/
theorem unsupported_model_translation_already_called :
    (generateImage genEnvReady [0x4e00] "bad" none).1.success = false ∧
    (generateImage genEnvReady [0x4e00] "bad" none).1.message =
      "不支援的模型: bad" ∧
    (generateImage genEnvReady [0x4e00] "bad" none).2 =
      [.translateCall [0x4e00]] := by
  refine ⟨by decide, by decide, by decide⟩

lemma translateToEnglish_no_backend (env : GenEnv) (t : List Nat)
    (mid : String) :
    GenEffect.backendCall mid ∉ (translateToEnglish env t).2 := by
  simp only [translateToEnglish]
  split
  · simp
  · split <;> simp

/-- Claim C9 (amended): `generate_image` validates the model id against the
fixed three-model allow-list, failing with the unsupported-model error for
every unknown id, and the rejection happens before the generation backend is
ever called; but it is not free of all side effects — translation of a
CJK-containing prompt runs before the model validation. -/
theorem unsupported_model_rejected_before_backend (env : GenEnv)
    (prompt : List Nat) (model : String) (negative_prompt : Option (List Nat))
    (henv : env.hfToken = true) (hm : modelsGet model = none) :
    (generateImage env prompt model negative_prompt).1.success = false ∧
    (generateImage env prompt model negative_prompt).1.message =
      "不支援的模型: " ++ model ∧
    ∀ mid, GenEffect.backendCall mid ∉
      (generateImage env prompt model negative_prompt).2 := by
  simp only [generateImage, henv, Bool.not_true, Bool.false_eq_true, if_false,
    hm]
  refine ⟨trivial, trivial, ?_⟩
  intro mid
  rw [List.mem_append]
  rintro (hmem | hmem)
  · rcases em (containsChinese prompt = true) with hc | hc
    · rw [if_pos hc] at hmem
      exact translateToEnglish_no_backend env prompt mid hmem
    · rw [if_neg hc] at hmem
      simp at hmem
  · cases negative_prompt with
    | none => simp at hmem
    | some np =>
      rcases em (containsChinese np = true) with hc | hc
      · simp only [if_pos hc] at hmem
        exact translateToEnglish_no_backend env np mid hmem
      · simp only [if_neg hc] at hmem
        simp at hmem

/-- Witness for the amended C9: an unknown model id on a configured
environment yields the unsupported-model failure with no backend call. -/
theorem unsupported_model_rejected_before_backend_witness :
    (generateImage genEnvReady [65] "nope" none).1.success = false ∧
    (generateImage genEnvReady [65] "nope" none).1.message =
      "不支援的模型: nope" ∧
    ∀ mid, GenEffect.backendCall mid ∉
      (generateImage genEnvReady [65] "nope" none).2 :=
  unsupported_model_rejected_before_backend genEnvReady [65] "nope" none rfl
    (by decide)

lemma getAdvertisement_failure_no_data (db : List Row) (i : Int) :
    (getAdvertisement db i).success = false →
    (getAdvertisement db i).data = none := by
  unfold getAdvertisement
  split
  · intro _
    rfl
  · intro h
    simp at h

lemma updateAdvertisement_failure_no_data (u : UpdateRequest) (i now : Int)
    (db : List Row) :
    (updateAdvertisement u i now db).1.success = false →
    (updateAdvertisement u i now db).1.data = none := by
  simp only [updateAdvertisement]
  split
  · intro _
    rfl
  · split
    · intro _
      rfl
    · intro h
      simp at h

lemma incrementImpression_failure_no_data (dbRead dbWrite : List Row)
    (i : Int) :
    (incrementImpression dbRead dbWrite i).1.success = false →
    (incrementImpression dbRead dbWrite i).1.data = none := by
  simp only [incrementImpression]
  split
  · intro h
    simp at h
  · exact getAdvertisement_failure_no_data dbRead i

lemma deleteAdvertisement_failure_no_data (db : List Row) (b : Bool)
    (i : Int) :
    (deleteAdvertisement db b i).1.success = false →
    (deleteAdvertisement db b i).1.data = none := by
  simp only [deleteAdvertisement]
  split
  · intro h
    simp at h
  · exact getAdvertisement_failure_no_data db i

lemma generateImage_failure_no_data (env : GenEnv) (prompt : List Nat)
    (model : String) (negative_prompt : Option (List Nat)) :
    (generateImage env prompt model negative_prompt).1.success = false →
    (generateImage env prompt model negative_prompt).1.data = none := by
  simp only [generateImage]
  repeat' split
  all_goals intro h
  all_goals first
    | rfl
    | simp at h

/-- Claim C10: every service operation is total at the envelope level — each
returns, for every input, a record of its envelope type (`RowResult`,
`ListResult` or `GenResult`: a Bool success flag, a payload and a message,
with no escaping exception) — and on failure the payload is empty: `none`
for record operations, the empty list for list operations. -/
theorem service_operations_uniform_envelope :
    (∀ (db : List Row) (i : Int), (getAdvertisement db i).success = false →
      (getAdvertisement db i).data = none) ∧
    (∀ (st : Option String) (l o : Nat) (db : List Row),
      (getAllAdvertisements st l o db).success = false →
      (getAllAdvertisements st l o db).data = []) ∧
    (∀ db : List Row, (getActiveAdvertisements db).success = false →
      (getActiveAdvertisements db).data = []) ∧
    (∀ (d : List Nat) (fn ds : String) (s e q : Int) (uid : String)
      (now : Int) (db : List Row),
      (create_advertisement d fn ds s e q uid now db).1.success = false →
      (create_advertisement d fn ds s e q uid now db).1.data = none) ∧
    (∀ (u : UpdateRequest) (i now : Int) (db : List Row),
      (updateAdvertisement u i now db).1.success = false →
      (updateAdvertisement u i now db).1.data = none) ∧
    (∀ (dbRead dbWrite : List Row) (i : Int),
      (incrementImpression dbRead dbWrite i).1.success = false →
      (incrementImpression dbRead dbWrite i).1.data = none) ∧
    (∀ (db : List Row) (b : Bool) (i : Int),
      (deleteAdvertisement db b i).1.success = false →
      (deleteAdvertisement db b i).1.data = none) ∧
    (∀ (env : GenEnv) (p : List Nat) (m : String) (np : Option (List Nat)),
      (generateImage env p m np).1.success = false →
      (generateImage env p m np).1.data = none) := by
  refine ⟨getAdvertisement_failure_no_data, ?_, ?_, ?_,
    updateAdvertisement_failure_no_data, incrementImpression_failure_no_data,
    deleteAdvertisement_failure_no_data, generateImage_failure_no_data⟩
  · intro st l o db h
    simp [getAllAdvertisements] at h
  · intro db h
    simp [getActiveAdvertisements] at h
  · intro d fn ds s e q uid now db h
    simp [create_advertisement] at h

/-- Witness for C10: looking up an id in the empty table fails and carries an
empty payload. -/
theorem service_operations_uniform_envelope_witness :
    (getAdvertisement [] 0).success = false ∧
    (getAdvertisement [] 0).data = none :=
  ⟨rfl, service_operations_uniform_envelope.1 [] 0 rfl⟩
